import Mathlib

/-!
Verification development for the `pbft` repository: a shallow embedding of the
replica state machine (`src/behavior.rs`), the message model (`src/message.rs`)
and the startup CLI (`src/main.rs`), together with theorems settling the
specification claims.

Machine integers (`u64`, bytes) are embedded as `Nat`; reductions modulo
`2 ^ 64` are written explicitly where the source relies on fixed-width
wrap-around (only inside the hash function).  Fallible code (`Result`,
`panic!`-style aborts via `unwrap`/`expect`) is embedded as `Except`: an
`Except.error` at the event-handler level means the thread aborts (a panic).
-/

set_option maxRecDepth 8192

deriving instance DecidableEq for Except

namespace Pbft

/-! ## BLAKE2b-512

Model of the `blake2` crate's `Blake2b` (512-bit digest, unkeyed) used by
`PrePrepare::from` in `src/message.rs`, following RFC 7693.  Words are `Nat`
reduced mod `2 ^ 64`.
-/

/-- 64-bit wrap-around addition. -/
def add64 (a b : Nat) : Nat := (a + b) % (2 ^ 64)

/-- Bitwise xor; operands are kept below `2 ^ 64` so no reduction is needed. -/
def xor64 (a b : Nat) : Nat := a ^^^ b

/-- 64-bit right rotation. -/
def rotr64 (x r : Nat) : Nat := ((x >>> r) ||| (x <<< (64 - r))) % (2 ^ 64)

/-- BLAKE2b initialization vector (RFC 7693 §2.6). -/
def blakeIV : List Nat :=
  [0x6a09e667f3bcc908, 0xbb67ae8584caa73b, 0x3c6ef372fe94f82b, 0xa54ff53a5f1d36f1,
   0x510e527fade682d1, 0x9b05688c2b3e6c1f, 0x1f83d9abfb41bd6b, 0x5be0cd19137e2179]

/-- BLAKE2 message schedule permutations (RFC 7693 §2.7). -/
def blakeSigma : List (List Nat) :=
  [[0, 1, 2, 3, 4, 5, 6, 7, 8, 9, 10, 11, 12, 13, 14, 15],
   [14, 10, 4, 8, 9, 15, 13, 6, 1, 12, 0, 2, 11, 7, 5, 3],
   [11, 8, 12, 0, 5, 2, 15, 13, 10, 14, 3, 6, 7, 1, 9, 4],
   [7, 9, 3, 1, 13, 12, 11, 14, 2, 6, 5, 10, 4, 0, 15, 8],
   [9, 0, 5, 7, 2, 4, 10, 15, 14, 1, 11, 12, 6, 8, 3, 13],
   [2, 12, 6, 10, 0, 11, 8, 3, 4, 13, 7, 5, 15, 14, 1, 9],
   [12, 5, 1, 15, 14, 13, 4, 10, 0, 7, 6, 3, 9, 2, 8, 11],
   [13, 11, 7, 14, 12, 1, 3, 9, 5, 0, 15, 4, 8, 6, 2, 10],
   [6, 15, 14, 9, 11, 3, 0, 8, 12, 2, 13, 7, 1, 4, 10, 5],
   [10, 2, 8, 4, 7, 6, 1, 5, 15, 11, 9, 14, 3, 12, 13, 0]]

/-- The BLAKE2b mixing function G (RFC 7693 §3.1) acting on the 16-word
working vector at positions `a b c d` with message words `x y`. -/
def gmix (v : List Nat) (a b c d x y : Nat) : List Nat :=
  let va0 := v.getD a 0
  let vb0 := v.getD b 0
  let vc0 := v.getD c 0
  let vd0 := v.getD d 0
  let va1 := add64 (add64 va0 vb0) x
  let vd1 := rotr64 (xor64 vd0 va1) 32
  let vc1 := add64 vc0 vd1
  let vb1 := rotr64 (xor64 vb0 vc1) 24
  let va2 := add64 (add64 va1 vb1) y
  let vd2 := rotr64 (xor64 vd1 va2) 16
  let vc2 := add64 vc1 vd2
  let vb2 := rotr64 (xor64 vb1 vc2) 63
  (((v.set a va2).set b vb2).set c vc2).set d vd2

/-- One BLAKE2b round: eight G applications driven by a sigma row `s` over
message words `m`. -/
def blakeRound (m s v : List Nat) : List Nat :=
  let mi := fun i => m.getD (s.getD i 0) 0
  let v1 := gmix v 0 4 8 12 (mi 0) (mi 1)
  let v2 := gmix v1 1 5 9 13 (mi 2) (mi 3)
  let v3 := gmix v2 2 6 10 14 (mi 4) (mi 5)
  let v4 := gmix v3 3 7 11 15 (mi 6) (mi 7)
  let v5 := gmix v4 0 5 10 15 (mi 8) (mi 9)
  let v6 := gmix v5 1 6 11 12 (mi 10) (mi 11)
  let v7 := gmix v6 2 7 8 13 (mi 12) (mi 13)
  gmix v7 3 4 9 14 (mi 14) (mi 15)

/-- The BLAKE2b compression function F (RFC 7693 §3.2): `h` is the 8-word
chain value, `m` the 16 message words, `t` the byte offset counter and
`f` the final-block flag. -/
def compress (h m : List Nat) (t : Nat) (f : Bool) : List Nat :=
  let v0 := h ++ blakeIV
  let v1 := v0.set 12 (xor64 (v0.getD 12 0) (t % (2 ^ 64)))
  let v2 := v1.set 13 (xor64 (v1.getD 13 0) (t / (2 ^ 64)))
  let v3 := if f then v2.set 14 (xor64 (v2.getD 14 0) (2 ^ 64 - 1)) else v2
  let v4 := (List.range 12).foldl (fun v i => blakeRound m (blakeSigma.getD (i % 10) []) v) v3
  (List.range 8).map (fun i => xor64 (h.getD i 0) (xor64 (v4.getD i 0) (v4.getD (i + 8) 0)))

/-- Little-endian interpretation of a byte list as a word. -/
def leWord (bytes : List Nat) : Nat := bytes.foldr (fun b acc => acc * 256 + b) 0

/-- Split a 128-byte block into its 16 little-endian 64-bit words. -/
def chunkWords (block : List Nat) : List Nat :=
  (List.range 16).map (fun i => leWord ((block.drop (8 * i)).take 8))

/-- Zero-pad a final block to 128 bytes. -/
def padBlock (b : List Nat) : List Nat := b ++ List.replicate (128 - b.length) 0

/-- Split a byte list into 128-byte blocks; the final (possibly short or empty)
block is returned unpadded.  Structural recursion on a fuel that starts at the
byte count, which bounds the number of 128-byte blocks. -/
def chunksGo (fuel : Nat) (l : List Nat) : List (List Nat) :=
  match fuel with
  | 0 => [l]
  | fuel' + 1 => if l.length ≤ 128 then [l] else l.take 128 :: chunksGo fuel' (l.drop 128)

/-- Split a byte list into 128-byte blocks (last block unpadded, never empty
as a block list). -/
def chunks128 (l : List Nat) : List (List Nat) := chunksGo l.length l

/-- Iterate the compression function over the message blocks: every block but
the last uses the running byte counter, the last block is padded and compressed
with the total input length and the final flag (RFC 7693 §3.3). -/
def processBlocks (h : List Nat) (blocks : List (List Nat)) (processed total : Nat) : List Nat :=
  match blocks with
  | [] => h
  | [b] => compress h (chunkWords (padBlock b)) total true
  | b :: rest => processBlocks (compress h (chunkWords b) (processed + 128) false) rest (processed + 128) total

/-- BLAKE2b-512 initial chain value: IV with the parameter block word for
digest length 64, no key (RFC 7693 §2.5). -/
def blake2bInit : List Nat :=
  match blakeIV with
  | [] => []
  | h0 :: rest => xor64 h0 0x01010040 :: rest

/-- BLAKE2b-512 of a byte list: the 64-byte digest. -/
def blake2b512 (msg : List Nat) : List Nat :=
  ((processBlocks blake2bInit (chunks128 msg) 0 msg.length).map
    (fun w => (List.range 8).map (fun i => (w / 256 ^ i) % 256))).flatten

/-- Lower-case hex digit for a value below 16. -/
def hexDigit (n : Nat) : Char := if n < 10 then Char.ofNat (48 + n) else Char.ofNat (87 + n)

/-- Two-digit lower-case hex rendering of one byte, as the Rust
`format!("{:x}", hash)` on a digest renders each byte. -/
def byteHex (b : Nat) : List Char := [hexDigit (b / 16), hexDigit (b % 16)]

/-- Lower-case hex string of a byte list. -/
def hexOfBytes (bs : List Nat) : String := String.mk ((bs.map byteHex).flatten)

/-- UTF-8 encoding of one code point. -/
def utf8EncodeCharNat (c : Nat) : List Nat :=
  if c < 0x80 then [c]
  else if c < 0x800 then [0xC0 ||| (c >>> 6), 0x80 ||| (c &&& 0x3F)]
  else if c < 0x10000 then
    [0xE0 ||| (c >>> 12), 0x80 ||| ((c >>> 6) &&& 0x3F), 0x80 ||| (c &&& 0x3F)]
  else
    [0xF0 ||| (c >>> 18), 0x80 ||| ((c >>> 12) &&& 0x3F),
     0x80 ||| ((c >>> 6) &&& 0x3F), 0x80 ||| (c &&& 0x3F)]

/-- UTF-8 bytes of a string, as Rust's `str::as_bytes`. -/
def strBytes (s : String) : List Nat := (s.data.map (fun c => utf8EncodeCharNat c.toNat)).flatten

/-- BLAKE2b-512 hex digest of a string's UTF-8 bytes, as
`format!("{:x}", Blake2b::digest(message.as_bytes()))` in `src/message.rs`. -/
def blake2b512Hex (s : String) : String := hexOfBytes (blake2b512 (strBytes s))

/-! ## The message model of `src/message.rs` (namespace `Src`) -/

namespace Src

/-- The `PrePrepare` struct of `src/message.rs`: view, sequence number `n`,
and the hex digest of the client message. -/
structure PrePrepare where
  view : Nat
  n : Nat
  digest : String
deriving DecidableEq

/-- The constructor `PrePrepare::from(view, n, message)` of `src/message.rs`:
the digest is the lower-case hex of the BLAKE2b digest of the message bytes
(in the source the function is named `from`, a reserved word in Lean). -/
def PrePrepare.fromMessage (view n : Nat) (message : String) : PrePrepare :=
  { view := view, n := n, digest := blake2b512Hex message }

/-- The `PrePrepareSequence` counter of `src/message.rs`: starts at 0,
`increment` adds one. -/
structure PrePrepareSequence where
  value : Nat
deriving DecidableEq

/-- `PrePrepareSequence::new()`. -/
def PrePrepareSequence.new : PrePrepareSequence := { value := 0 }

/-- `PrePrepareSequence::increment()`. -/
def PrePrepareSequence.increment (s : PrePrepareSequence) : PrePrepareSequence :=
  { value := s.value + 1 }

end Src

/-! ## Startup CLI, `determine_node_type` of `src/main.rs` -/

/-- The `NodeType` of `src/node_type.rs` as used by `src/main.rs`. -/
inductive NodeType
  | primary
  | backup
deriving DecidableEq

/-- The function `determine_node_type(args)` of `src/main.rs`.  The outer
`Except String` models a panic inside the function (`panic!` on an unknown
argument, `unreachable!` on the impossible branch); the inner
`Except Unit NodeType` is the function's own `Result<NodeType, ()>`. -/
def determineNodeType (args : List String) : Except String (Except Unit NodeType) :=
  match args.length with
  | 1 => .ok (.ok .backup)
  | 2 =>
    match args.get? 1 with
    | some nodeType =>
      if nodeType = "primary" then .ok (.ok .primary)
      else .error ("Invalid node_type: " ++ nodeType)
    | none => .error "unreachable"
  | _ => .ok (.error ())

/-- The outcome of node-type determination as observed at startup. -/
inductive StartupResult
  | started (t : NodeType)
  | fatal
deriving DecidableEq

/-- The startup behaviour of `main` in `src/main.rs`: the `Result` returned by
`determine_node_type` goes through `.expect(..)`, so both an `Err` result and a
panic inside the function terminate the process with a non-zero exit
(modelled as `fatal`). -/
def startupNodeType (args : List String) : StartupResult :=
  match determineNodeType args with
  | .ok (.ok t) => .started t
  | .ok (.error ()) => .fatal
  | .error _ => .fatal

/-! ## Protocol message types used by `src/behavior.rs`

The revision of `src/message.rs` that `src/behavior.rs` compiles against
(defining `ClientRequest`, `ClientReply`, `Prepare`, `Commit` and the richer
`PrePrepare` with a bound request) is not in the source tree; these types are
modelled from the spec (§3 Data Model), with peer identities as `Nat`.
-/

/-- Peer identity (`libp2p::PeerId`), abstracted to `Nat`. -/
abbrev PeerId := Nat

/-- Substream/connection identifier carried by handler events. -/
abbrev ConnectionId := Nat

/-- Modelled from the spec: `ClientRequest { operation, timestamp, client_id }`
(§3); the missing revision of `src/message.rs` defines it with accessors
`operation()` and `timestamp()` used by `src/behavior.rs`. -/
structure ClientRequest where
  operation : String
  timestamp : Nat
  client : String
deriving DecidableEq

/-- Modelled from the spec: the canonical deterministic encoding of a
`ClientRequest` (§4.A: fixed field order, no floats) that is fed to the digest
function. -/
def canonicalEncode (r : ClientRequest) : String :=
  r.operation ++ "|" ++ toString r.timestamp ++ "|" ++ r.client

/-- Modelled from the spec: the digest function `H` (§4.A), a BLAKE2b-512 hex
digest of the canonical encoding, matching the hash used by `src/message.rs`. -/
def requestDigest (r : ClientRequest) : String := blake2b512Hex (canonicalEncode r)

/-- Modelled from the spec: `PrePrepare { view, seq, digest, request }` (§3),
the revision used by `src/behavior.rs` which binds the client request. -/
structure PrePrepare where
  view : Nat
  n : Nat
  digest : String
  request : ClientRequest
deriving DecidableEq

/-- Modelled from the spec: the `PrePrepare::from(view, n, client_request)`
constructor called by `Pbft::add_client_request`, binding the digest of the
request (§4.D step 2: `pp = { current_view, n, H(req), req }`). -/
def PrePrepare.build (view n : Nat) (req : ClientRequest) : PrePrepare :=
  { view := view, n := n, digest := requestDigest req, request := req }

/-- Modelled from the spec: `Prepare { view, seq, digest }` (§3; the sender's
replica identity is carried separately as the log key). -/
structure Prepare where
  view : Nat
  n : Nat
  digest : String
deriving DecidableEq

/-- Modelled from the spec: `Prepare::from(&pre_prepare)` used by
`Pbft::process_pre_prepare`, echoing view, sequence and digest. -/
def Prepare.ofPrePrepare (pp : PrePrepare) : Prepare :=
  { view := pp.view, n := pp.n, digest := pp.digest }

/-- Modelled from the spec: `Commit { view, seq, digest }` (§3). -/
structure Commit where
  view : Nat
  n : Nat
  digest : String
deriving DecidableEq

/-- Modelled from the spec: the `Commit: From<Prepare>` conversion
(`request.into()` in the prepare branch of `Pbft::inject_node_event`). -/
def Commit.ofPrepare (p : Prepare) : Commit :=
  { view := p.view, n := p.n, digest := p.digest }

/-- Modelled from the spec: `ClientReply { view, timestamp (copied from
request), client_id, replica_id, result }` (§3), built by
`ClientReply::new(self_id, client_request, &commit)`. -/
structure ClientReply where
  view : Nat
  timestamp : Nat
  client : String
  replica : PeerId
  result : String
deriving DecidableEq

/-- Modelled from the spec: the `ClientReply::new` constructor; the timestamp
is copied from the request (§3), which is what
`state.update_last_timestamp(reply.timestamp())` then records. -/
def ClientReply.build (replica : PeerId) (req : ClientRequest) (c : Commit) : ClientReply :=
  { view := c.view, timestamp := req.timestamp, client := req.client,
    replica := replica, result := req.operation }

/-! ## Replica log state

The revision of `src/state.rs` that `src/behavior.rs` compiles against is not
in the source tree (the one present is an earlier stub).  The `State` below is
modelled from the spec (§3 Log, §4.B Replica Log) restricted to exactly the
operations `src/behavior.rs` calls: `current_view`, `insert_pre_prepare`,
`get_pre_prepare`, `get_pre_prepare_by_key`, `insert_prepare`,
`prepare_len(view, seq)`, `insert_commit`, `commit_len(view)`,
`last_timestamp`, `update_last_timestamp`.  Note the caller's interface fixes
two points the spec idealizes differently: the commit counter is keyed by view
alone, and the last-reply timestamp is a single value, not per client.
-/

/-- Modelled from the spec: the replica log plus view and last-reply timestamp
(§3), shaped by the accessors `src/behavior.rs` uses. -/
structure State where
  prePrepares : List PrePrepare
  prepares : List (Prepare × PeerId)
  commits : List (Commit × PeerId)
  currentView : Nat
  lastTimestamp : Nat
deriving DecidableEq

/-- Modelled from the spec: `State::new()` — empty log, view 0 (§3: View
initially 0), no reply recorded yet. -/
def State.new : State :=
  { prePrepares := [], prepares := [], commits := [], currentView := 0, lastTimestamp := 0 }

/-- Modelled from the spec: `get_pre_prepare_by_key(view, seq)` (§4.B
`get_pre_prepare(view, seq) → Option<PrePrepare>`). -/
def getPrePrepareByKey (st : State) (v n : Nat) : Option PrePrepare :=
  st.prePrepares.find? (fun pp => pp.view == v && pp.n == n)

/-- Modelled from the spec: `get_pre_prepare(&pre_prepare)` as used by
`validate_pre_prepare` — lookup under the message's own `(view, seq)` key. -/
def getPrePrepare (st : State) (pp : PrePrepare) : Option PrePrepare :=
  getPrePrepareByKey st pp.view pp.n

/-- Modelled from the spec: `insert_pre_prepare(pp)` stores `pp` at
`(pp.view, pp.seq)` (§4.B); an existing entry is kept — the caller has already
validated that an existing entry carries the same digest. -/
def insertPrePrepare (st : State) (pp : PrePrepare) : State :=
  match getPrePrepareByKey st pp.view pp.n with
  | some _ => st
  | none => { st with prePrepares := pp :: st.prePrepares }

/-- Modelled from the spec: `insert_prepare(replica, prepare)` records the
replica's vote, idempotent per `(view, seq, replica)` (§4.B). -/
def insertPrepare (st : State) (peer : PeerId) (p : Prepare) : State :=
  if st.prepares.any (fun e => e.2 == peer && e.1.view == p.view && e.1.n == p.n) then st
  else { st with prepares := (p, peer) :: st.prepares }

/-- Modelled from the spec: `insert_commit(replica, commit)`, analogous to
`insert_prepare` (§4.B), idempotent per `(view, seq, replica)`. -/
def insertCommit (st : State) (peer : PeerId) (c : Commit) : State :=
  if st.commits.any (fun e => e.2 == peer && e.1.view == c.view && e.1.n == c.n) then st
  else { st with commits := (c, peer) :: st.commits }

/-- Modelled from the spec: `prepare_len(view, seq)` counts distinct replica
identities with a logged prepare for the slot (§4.B counter semantics). -/
def prepareLen (st : State) (v n : Nat) : Nat :=
  ((st.prepares.filter (fun e => e.1.view == v && e.1.n == n)).map (fun e => e.2)).dedup.length

/-- Modelled from the spec: `commit_len(view)` counts distinct replica
identities with a logged commit for the view — the caller passes only the
view, so the count is keyed by view alone. -/
def commitLen (st : State) (v : Nat) : Nat :=
  ((st.commits.filter (fun e => e.1.view == v)).map (fun e => e.2)).dedup.length

/-! ## The replica state machine of `src/behavior.rs` -/

/-- Each `Err(format!(..))` and `panic!`/failed-`unwrap` site of
`src/behavior.rs`, tagged with the data the source's message interpolates.
The constructors whose name starts with `panic` correspond to aborts
(`panic!` or `unwrap()` on `None`); the others are `Err` values which the
event handler turns into aborts via `unwrap()`. -/
inductive PbftError
  | invalidDigest (pp : PrePrepare)
  | prePrepareViewMismatch (msgView stateView : Nat)
  | conflictingDigest (pp stored : PrePrepare)
  | prepareMismatch (p : Prepare) (pp : PrePrepare)
  | noMatchingPrePrepare (p : Prepare)
  | commitViewMismatch (msgView stateView : Nat)
  | panicConnectedPeersEmpty
  | panicPeersNotFound
  | panicNoPrePrepareForCommit (c : Commit)
deriving DecidableEq

/-- `PbftHandlerIn`: messages the behaviour hands to a connection handler. -/
inductive PbftHandlerIn
  | prePrepareRequest (pp : PrePrepare)
  | prepareRequest (p : Prepare)
  | commitRequest (c : Commit)
  | prePrepareResponse (s : String) (conn : ConnectionId)
  | prepareResponse (s : String) (conn : ConnectionId)
  | commitResponse (s : String) (conn : ConnectionId)
deriving DecidableEq

/-- `NetworkBehaviourAction` as queued in `queued_events`: dial a peer, or
send a handler message to a peer. -/
inductive NetworkAction
  | dialPeer (peer : PeerId)
  | sendEvent (peer : PeerId) (event : PbftHandlerIn)
deriving DecidableEq

/-- `PbftHandlerEvent`: inbound events delivered to `inject_node_event`. -/
inductive PbftHandlerEvent
  | processPrePrepareRequest (request : PrePrepare) (connectionId : ConnectionId)
  | response (response : String)
  | processPrepareRequest (request : Prepare) (connectionId : ConnectionId)
  | processCommitRequest (request : Commit) (connectionId : ConnectionId)
deriving DecidableEq

/-- The `Pbft` behaviour struct of `src/behavior.rs`: own identity (derived
from the keypair), connected peer set, outbound event queue, log state,
pre-prepare sequence counter and the shared client-reply queue.  The
`addresses` book is not modelled (no claim concerns it). -/
structure Replica where
  selfId : PeerId
  connectedPeers : List PeerId
  queuedEvents : List NetworkAction
  state : State
  prePrepareSequence : Nat
  clientReplies : List ClientReply
deriving DecidableEq

/-- `Pbft::new`: empty peers, empty queue, fresh state, sequence 0, empty
reply queue. -/
def initReplica (selfId : PeerId) : Replica :=
  { selfId := selfId, connectedPeers := [], queuedEvents := [], state := State.new,
    prePrepareSequence := 0, clientReplies := [] }

/-- Broadcast: one `SendEvent` per connected peer, as the `for peer_id in
self.connected_peers.iter()` loops in `src/behavior.rs`. -/
def broadcast (peers : List PeerId) (e : PbftHandlerIn) : List NetworkAction :=
  peers.map (fun p => .sendEvent p e)

/-- `Pbft::validate_pre_prepare`: digest validity (spec rule V2, delegated to
the message's `validate_digest`), current-view equality, and the
no-equivocation check against a stored entry at the same `(view, seq)`. -/
def validatePrePrepare (st : State) (pp : PrePrepare) : Except PbftError Unit :=
  if pp.digest ≠ requestDigest pp.request then .error (.invalidDigest pp)
  else if pp.view ≠ st.currentView then .error (.prePrepareViewMismatch pp.view st.currentView)
  else
    match getPrePrepare st pp with
    | some stored =>
      if pp.digest ≠ stored.digest then .error (.conflictingDigest pp stored) else .ok ()
    | none => .ok ()

/-- `Pbft::validate_prepare`: a matching pre-prepare with the same view,
sequence number and digest must already be logged. -/
def validatePrepare (st : State) (p : Prepare) : Except PbftError Unit :=
  match getPrePrepareByKey st p.view p.n with
  | some pp => if pp.digest == p.digest then .ok () else .error (.prepareMismatch p pp)
  | none => .error (.noMatchingPrePrepare p)

/-- `Pbft::validate_commit`: only the current-view check is implemented. -/
def validateCommit (st : State) (c : Commit) : Except PbftError Unit :=
  if c.view ≠ st.currentView then .error (.commitViewMismatch c.view st.currentView) else .ok ()

/-- `Pbft::prepared(view, sequence_number)`: the source's placeholder quorum
test `prepare_len(view, seq) >= 1`. -/
def prepared (st : State) (view sequenceNumber : Nat) : Bool :=
  decide (1 ≤ prepareLen st view sequenceNumber)

/-- `Pbft::committed(view, sequence_number)` (dead code in the source):
`prepared && commit_len(view) >= 1`. -/
def committed (st : State) (view sequenceNumber : Nat) : Bool :=
  prepared st view sequenceNumber && decide (1 ≤ commitLen st view)

/-- `Pbft::committed_local(view, sequence_number)`: the source's placeholder
`prepared && commit_len(view) >= 1`; note the commit count ignores the
sequence number. -/
def committedLocal (st : State) (view sequenceNumber : Nat) : Bool :=
  prepared st view sequenceNumber && decide (1 ≤ commitLen st view)

/-- `Pbft::process_pre_prepare`: validate, insert the pre-prepare, insert the
replica's own prepare, abort if no peers are connected, then broadcast the
prepare to every connected peer. -/
def processPrePrepare (r : Replica) (pp : PrePrepare) : Except PbftError Replica :=
  match validatePrePrepare r.state pp with
  | .error e => .error e
  | .ok () =>
    let st1 := insertPrePrepare r.state pp
    let prepare := Prepare.ofPrePrepare pp
    let st2 := insertPrepare st1 r.selfId prepare
    if r.connectedPeers.isEmpty then .error .panicPeersNotFound
    else
      .ok { r with
              state := st2,
              queuedEvents :=
                r.queuedEvents ++ broadcast r.connectedPeers (.prepareRequest prepare) }

/-- `Pbft::add_client_request`: increment the sequence counter, build the
pre-prepare binding the request digest, abort if no peers are connected,
broadcast the pre-prepare, then process it locally (the source's
`.unwrap()` surfaces any processing error as a panic). -/
def addClientRequest (r : Replica) (req : ClientRequest) : Except PbftError Replica :=
  let seq := r.prePrepareSequence + 1
  let pp := PrePrepare.build r.state.currentView seq req
  if r.connectedPeers.isEmpty then .error .panicConnectedPeersEmpty
  else
    processPrePrepare
      { r with
          prePrepareSequence := seq,
          queuedEvents := r.queuedEvents ++ broadcast r.connectedPeers (.prePrepareRequest pp) }
      pp

/-- The `ProcessPrepareRequest` branch of `Pbft::inject_node_event`: validate
(the source `unwrap`s the result, so an error aborts), insert the sender's
prepare, acknowledge, and when `prepared` holds broadcast a commit built from
the prepare. -/
def processPrepareEvent (r : Replica) (peer : PeerId) (p : Prepare) (conn : ConnectionId) :
    Except PbftError Replica :=
  match validatePrepare r.state p with
  | .error e => .error e
  | .ok () =>
    let st1 := insertPrepare r.state peer p
    let q1 := r.queuedEvents ++ [.sendEvent peer (.prepareResponse "OK" conn)]
    let q2 :=
      if prepared st1 p.view p.n then
        q1 ++ broadcast r.connectedPeers (.commitRequest (Commit.ofPrepare p))
      else q1
    .ok { r with state := st1, queuedEvents := q2 }

/-- The `ProcessCommitRequest` branch of `Pbft::inject_node_event`: validate
(`unwrap`), acknowledge, insert the sender's commit, and when
`committed_local` holds fetch the bound request (`unwrap` aborts when the
pre-prepare is missing), apply the last-timestamp duplicate suppression, and
otherwise execute: record the reply timestamp and enqueue the client reply. -/
def processCommitEvent (r : Replica) (peer : PeerId) (c : Commit) (conn : ConnectionId) :
    Except PbftError Replica :=
  match validateCommit r.state c with
  | .error e => .error e
  | .ok () =>
    let q1 := r.queuedEvents ++ [.sendEvent peer (.commitResponse "OK" conn)]
    let st1 := insertCommit r.state peer c
    if committedLocal st1 c.view c.n then
      match getPrePrepareByKey st1 c.view c.n with
      | none => .error (.panicNoPrePrepareForCommit c)
      | some pp =>
        if pp.request.timestamp ≤ st1.lastTimestamp then
          .ok { r with state := st1, queuedEvents := q1 }
        else
          let reply := ClientReply.build r.selfId pp.request c
          .ok { r with
                  state := { st1 with lastTimestamp := reply.timestamp },
                  queuedEvents := q1,
                  clientReplies := r.clientReplies ++ [reply] }
    else .ok { r with state := st1, queuedEvents := q1 }

/-- The `ProcessPrePrepareRequest` branch of `Pbft::inject_node_event`:
process the pre-prepare (the source `unwrap`s the result, so an error
aborts), then acknowledge to the sender. -/
def processPrePrepareEvent (r : Replica) (peer : PeerId) (pp : PrePrepare) (conn : ConnectionId) :
    Except PbftError Replica :=
  match processPrePrepare r pp with
  | .error e => .error e
  | .ok r1 =>
    .ok { r1 with
          queuedEvents := r1.queuedEvents ++ [.sendEvent peer (.prePrepareResponse "OK" conn)] }

/-- `Pbft::inject_node_event`: dispatch on the handler event.  A returned
`Except.error` models a node abort — every validation failure is `unwrap`ed
in the source.  The pre-prepare branch acknowledges after processing;
`Response` events only log. -/
def injectNodeEvent (r : Replica) (peer : PeerId) (evt : PbftHandlerEvent) :
    Except PbftError Replica :=
  match evt with
  | .processPrePrepareRequest pp conn => processPrePrepareEvent r peer pp conn
  | .response _ => .ok r
  | .processPrepareRequest p conn => processPrepareEvent r peer p conn
  | .processCommitRequest c conn => processCommitEvent r peer c conn

/-- Set-semantics insertion into the connected-peer list
(`HashSet::insert` in `inject_connected`). -/
def insertPeerId (peers : List PeerId) (p : PeerId) : List PeerId :=
  if peers.contains p then peers else p :: peers

/-- One externally-triggered transition of the behaviour: a queued dial from
`add_peer`, a client request, an inbound handler event, a peer (dis)connect,
or the poll loop draining the front of the outbound queue.  Transitions exist
only for non-aborting executions. -/
inductive Step : Replica → Replica → Prop
  | addPeer (r : Replica) (peer : PeerId) :
      Step r { r with queuedEvents := r.queuedEvents ++ [.dialPeer peer] }
  | clientRequest (r r' : Replica) (req : ClientRequest) :
      addClientRequest r req = .ok r' → Step r r'
  | nodeEvent (r r' : Replica) (peer : PeerId) (evt : PbftHandlerEvent) :
      injectNodeEvent r peer evt = .ok r' → Step r r'
  | connected (r : Replica) (peer : PeerId) :
      Step r { r with connectedPeers := insertPeerId r.connectedPeers peer }
  | disconnected (r : Replica) (peer : PeerId) :
      Step r { r with connectedPeers := r.connectedPeers.filter (fun q => q ≠ peer) }
  | poll (r : Replica) :
      Step r { r with queuedEvents := r.queuedEvents.tail }

/-- Replica states reachable from a fresh node. -/
def Reachable (selfId : PeerId) (r : Replica) : Prop :=
  Relation.ReflTransGen Step (initReplica selfId) r

/-! ## Claim-side reference definitions

The following definitions follow the specification's words (not the source)
and exist only to be compared against the source-derived definitions above.
-/

/-- Following the spec's words: the fault bound `f = floor((n - 1) / 3)` for a
configured total replica count `n` (§4.D quorum arithmetic). -/
def quorumF (n : Nat) : Nat := (n - 1) / 3

/-- Following the spec's words: `count_prepares(view, seq, digest)` — distinct
replicas with a logged prepare matching view, sequence and digest (§4.B). -/
def countPrepares (st : State) (v s : Nat) (d : String) : Nat :=
  ((st.prepares.filter (fun e => e.1.view == v && e.1.n == s && e.1.digest == d)).map
    (fun e => e.2)).dedup.length

/-- Following the spec's words: `count_commits(view, seq, digest)` (§4.B). -/
def countCommits (st : State) (v s : Nat) (d : String) : Nat :=
  ((st.commits.filter (fun e => e.1.view == v && e.1.n == s && e.1.digest == d)).map
    (fun e => e.2)).dedup.length

/-- Following the claim's words: the prepared predicate as specified —
a pre-prepare logged with digest `d` and at least `2 f` matching prepares. -/
def preparedAsSpecified (numReplicas : Nat) (st : State) (v s : Nat) (d : String) : Bool :=
  (match getPrePrepareByKey st v s with
   | some pp => pp.digest == d
   | none => false) &&
  decide (2 * quorumF numReplicas ≤ countPrepares st v s d)

/-- Following the claim's words: the committed-local predicate as specified —
prepared plus at least `2 f + 1` matching commits. -/
def committedLocalAsSpecified (numReplicas : Nat) (st : State) (v s : Nat) (d : String) : Bool :=
  preparedAsSpecified numReplicas st v s d &&
  decide (2 * quorumF numReplicas + 1 ≤ countCommits st v s d)

/-- Following the claim's words (claim C3): the last reply timestamp recorded
for one client, read off the reply history (0 when the client has none). -/
def lastReplyTimestampOfClient (replies : List ClientReply) (c : String) : Nat :=
  (replies.filter (fun rp => rp.client == c)).foldl (fun a rp => max a rp.timestamp) 0

/-- Protocol-message handler events (pre-prepare, prepare or commit), as
opposed to response acknowledgements. -/
def IsProtocolMessage : PbftHandlerEvent → Prop := fun evt =>
  match evt with
  | .response _ => False
  | _ => True

/-- Extract the successor replica from a non-aborting handler run. -/
def okOr (x : Except PbftError Replica) (dflt : Replica) : Replica :=
  match x with
  | .ok r => r
  | .error _ => dflt

/-! ## Concrete fixtures used by the claim theorems and witnesses -/

/-- Fixture: a client request. -/
def c1Req : ClientRequest := { operation := "op", timestamp := 5, client := "C" }

/-- Fixture: a logged pre-prepare at slot `(0, 1)` with digest `d0`. -/
def c1PP : PrePrepare := { view := 0, n := 1, digest := "d0", request := c1Req }

/-- Fixture: one matching prepare vote. -/
def c1Prep : Prepare := { view := 0, n := 1, digest := "d0" }

/-- Fixture: one matching commit vote. -/
def c1Com : Commit := { view := 0, n := 1, digest := "d0" }

/-- Fixture: a state with exactly one prepare and one commit logged for
slot `(0, 1)` — far below the `2 f` and `2 f + 1` quorums for `n = 4`. -/
def c1State : State :=
  { prePrepares := [c1PP], prepares := [(c1Prep, 2)], commits := [(c1Com, 2)],
    currentView := 0, lastTimestamp := 0 }

/-- Fixture: a prepare with no matching pre-prepare anywhere. -/
def c2Prep : Prepare := { view := 0, n := 1, digest := "dX" }

/-- Fixture: client B's request with timestamp 50. -/
def c3ReqB : ClientRequest := { operation := "SET y 2", timestamp := 50, client := "B" }

/-- Fixture: the pre-prepare binding client B's request at slot `(0, 1)`. -/
def c3PP : PrePrepare := { view := 0, n := 1, digest := "dB", request := c3ReqB }

/-- Fixture: a prepare vote for that slot. -/
def c3Prep : Prepare := { view := 0, n := 1, digest := "dB" }

/-- Fixture: the commit that completes the slot. -/
def c3Com : Commit := { view := 0, n := 1, digest := "dB" }

/-- Fixture: an earlier reply that went to client A with timestamp 100. -/
def c3ReplyA : ClientReply :=
  { view := 0, timestamp := 100, client := "A", replica := 1, result := "r" }

/-- Fixture: a replica that last replied to client A at timestamp 100 and is
about to commit client B's request with timestamp 50. -/
def c3Replica : Replica :=
  { selfId := 1, connectedPeers := [2], queuedEvents := [],
    state := { prePrepares := [c3PP], prepares := [(c3Prep, 2)], commits := [],
               currentView := 0, lastTimestamp := 100 },
    prePrepareSequence := 1, clientReplies := [c3ReplyA] }

/-- Fixture: the replica after the commit for client B's request arrives. -/
def c3After : Replica := okOr (injectNodeEvent c3Replica 3 (.processCommitRequest c3Com 0)) c3Replica

/-- Fixture: the same scenario with a request timestamp 150 that clears the
replica-wide last-reply timestamp, used by the amended-claim witness. -/
def c3ReqHi : ClientRequest := { operation := "SET y 2", timestamp := 150, client := "B" }

/-- Fixture: pre-prepare binding the timestamp-150 request. -/
def c3PPHi : PrePrepare := { view := 0, n := 1, digest := "dB", request := c3ReqHi }

/-- Fixture: the executing variant of the duplicate-suppression replica. -/
def c3ReplicaHi : Replica :=
  { selfId := 1, connectedPeers := [2], queuedEvents := [],
    state := { prePrepares := [c3PPHi], prepares := [(c3Prep, 2)], commits := [],
               currentView := 0, lastTimestamp := 100 },
    prePrepareSequence := 1, clientReplies := [c3ReplyA] }

/-- Fixture: the executing variant after the commit arrives. -/
def c3AfterHi : Replica :=
  okOr (injectNodeEvent c3ReplicaHi 3 (.processCommitRequest c3Com 0)) c3ReplicaHi

/-- Fixture: request used by the conflicting-digest witness. -/
def c4Req : ClientRequest := { operation := "op4", timestamp := 4, client := "C4" }

/-- Fixture: a stored pre-prepare whose digest disagrees with any honest one. -/
def c4Stored : PrePrepare := { view := 0, n := 1, digest := "other", request := c4Req }

/-- Fixture: a well-formed pre-prepare for the occupied slot `(0, 1)`. -/
def c4PP : PrePrepare := PrePrepare.build 0 1 c4Req

/-- Fixture: a state whose slot `(0, 1)` is already occupied. -/
def c4St : State :=
  { prePrepares := [c4Stored], prepares := [], commits := [], currentView := 0,
    lastTimestamp := 0 }

/-- Fixture: a replica wrapping that state, for the log-stability witness. -/
def c4Replica : Replica :=
  { selfId := 1, connectedPeers := [], queuedEvents := [], state := c4St,
    prePrepareSequence := 0, clientReplies := [] }

/-- Fixture: client request for the reachable-prepare scenario. -/
def c5Req : ClientRequest := { operation := "SET x 1", timestamp := 100, client := "C" }

/-- Fixture: the honestly built pre-prepare for that request. -/
def c5PP : PrePrepare := PrePrepare.build 0 1 c5Req

/-- Fixture: the matching prepare, as a backup would send it. -/
def c5Prep : Prepare := Prepare.ofPrePrepare c5PP

/-- Fixture: a fresh replica with identity 1. -/
def c5R0 : Replica := initReplica 1

/-- Fixture: the fresh replica after peer 7 connects. -/
def c5R1 : Replica := { c5R0 with connectedPeers := insertPeerId c5R0.connectedPeers 7 }

/-- Fixture: the replica after accepting the pre-prepare from peer 7. -/
def c5R2 : Replica := okOr (injectNodeEvent c5R1 7 (.processPrePrepareRequest c5PP 0)) c5R1

/-- Fixture: the request submitted to a peerless primary. -/
def c6Req : ClientRequest := { operation := "op6", timestamp := 1, client := "C6" }

/-- Fixture: request behind the idempotence scenario. -/
def c7Req : ClientRequest := { operation := "op7", timestamp := 7, client := "C7" }

/-- Fixture: the logged pre-prepare for slot `(0, 1)`. -/
def c7PP : PrePrepare := { view := 0, n := 1, digest := "d7", request := c7Req }

/-- Fixture: the matching prepare that gets re-delivered. -/
def c7Prep : Prepare := { view := 0, n := 1, digest := "d7" }

/-- Fixture: a replica that has logged the pre-prepare and nothing else. -/
def c7Replica : Replica :=
  { selfId := 1, connectedPeers := [2], queuedEvents := [],
    state := { prePrepares := [c7PP], prepares := [], commits := [], currentView := 0,
               lastTimestamp := 0 },
    prePrepareSequence := 0, clientReplies := [] }

/-- Fixture: the handler event delivering the prepare. -/
def c7Event : PbftHandlerEvent := .processPrepareRequest c7Prep 0

/-- Fixture: the replica after the first delivery. -/
def c7Once : Replica := okOr (injectNodeEvent c7Replica 2 c7Event) c7Replica

/-- Fixture: the replica after the second (duplicate) delivery. -/
def c7Twice : Replica := okOr (injectNodeEvent c7Once 2 c7Event) c7Replica

/-- Fixture: a prepare vote at sequence 5, for the commit-tally claim. -/
def c10Prep : Prepare := { view := 0, n := 5, digest := "dA" }

/-- Fixture: a state where sequence 5 of view 0 is prepared. -/
def c10St : State :=
  { prePrepares := [], prepares := [(c10Prep, 3)], commits := [], currentView := 0,
    lastTimestamp := 0 }

/-- Fixture: a commit for a different sequence (1) of the same view. -/
def c10Com : Commit := { view := 0, n := 1, digest := "dB" }

/-! ## Structural lemmas about the log operations -/

theorem insertPrepare_prePrepares (st : State) (peer : PeerId) (p : Prepare) :
    (insertPrepare st peer p).prePrepares = st.prePrepares := by
  unfold insertPrepare; split <;> rfl

theorem insertPrepare_currentView (st : State) (peer : PeerId) (p : Prepare) :
    (insertPrepare st peer p).currentView = st.currentView := by
  unfold insertPrepare; split <;> rfl

theorem insertPrepare_lastTimestamp (st : State) (peer : PeerId) (p : Prepare) :
    (insertPrepare st peer p).lastTimestamp = st.lastTimestamp := by
  unfold insertPrepare; split <;> rfl

theorem insertPrepare_commits (st : State) (peer : PeerId) (p : Prepare) :
    (insertPrepare st peer p).commits = st.commits := by
  unfold insertPrepare; split <;> rfl

theorem insertCommit_prePrepares (st : State) (peer : PeerId) (c : Commit) :
    (insertCommit st peer c).prePrepares = st.prePrepares := by
  unfold insertCommit; split <;> rfl

theorem insertCommit_currentView (st : State) (peer : PeerId) (c : Commit) :
    (insertCommit st peer c).currentView = st.currentView := by
  unfold insertCommit; split <;> rfl

theorem insertCommit_lastTimestamp (st : State) (peer : PeerId) (c : Commit) :
    (insertCommit st peer c).lastTimestamp = st.lastTimestamp := by
  unfold insertCommit; split <;> rfl

theorem insertCommit_prepares (st : State) (peer : PeerId) (c : Commit) :
    (insertCommit st peer c).prepares = st.prepares := by
  unfold insertCommit; split <;> rfl

theorem insertPrePrepare_currentView (st : State) (pp : PrePrepare) :
    (insertPrePrepare st pp).currentView = st.currentView := by
  unfold insertPrePrepare; split <;> rfl

theorem insertPrePrepare_lastTimestamp (st : State) (pp : PrePrepare) :
    (insertPrePrepare st pp).lastTimestamp = st.lastTimestamp := by
  unfold insertPrePrepare; split <;> rfl

/-- Lookups only read the pre-prepare log, so states with the same
pre-prepare log agree on them. -/
theorem getPrePrepareByKey_congr {st st' : State}
    (h : st'.prePrepares = st.prePrepares) (v n : Nat) :
    getPrePrepareByKey st' v n = getPrePrepareByKey st v n := by
  unfold getPrePrepareByKey; rw [h]

/-- Inserting a pre-prepare never disturbs an existing entry. -/
theorem getPrePrepareByKey_insertPrePrepare {st : State} {v n : Nat} {q : PrePrepare}
    (h : getPrePrepareByKey st v n = some q) (pp : PrePrepare) :
    getPrePrepareByKey (insertPrePrepare st pp) v n = some q := by
  unfold insertPrePrepare
  split
  · exact h
  next hnone =>
    show List.find? _ (pp :: st.prePrepares) = some q
    by_cases hk : (pp.view == v && pp.n == n) = true
    · exfalso
      simp only [Bool.and_eq_true, beq_iff_eq] at hk
      rw [hk.1, hk.2] at hnone
      rw [hnone] at h
      cases h
    · refine List.find?_cons_eq_some.mpr (.inr ⟨?_, h⟩)
      simp only [Bool.not_eq_true']
      exact Bool.eq_false_iff.mpr hk

/-- Membership after a pre-prepare insertion: an entry is either old or the
inserted message. -/
theorem mem_insertPrePrepare {st : State} {pp q : PrePrepare}
    (h : q ∈ (insertPrePrepare st pp).prePrepares) :
    q ∈ st.prePrepares ∨ q = pp := by
  unfold insertPrePrepare at h
  split at h
  · exact .inl h
  · rcases List.mem_cons.mp h with h1 | h1
    · exact .inr h1
    · exact .inl h1

/-- After inserting a pre-prepare, its slot is occupied. -/
theorem insertPrePrepare_occupied (st : State) (pp : PrePrepare) :
    ∃ q, getPrePrepareByKey (insertPrePrepare st pp) pp.view pp.n = some q := by
  unfold insertPrePrepare
  split
  next q hq => exact ⟨q, hq⟩
  · refine ⟨pp, ?_⟩
    show List.find? _ (pp :: st.prePrepares) = some pp
    exact List.find?_cons_of_pos _ (by simp)

/-- Inserting into an occupied slot is a no-op. -/
theorem insertPrePrepare_of_occupied {st : State} {pp : PrePrepare} {q : PrePrepare}
    (h : getPrePrepareByKey st pp.view pp.n = some q) :
    insertPrePrepare st pp = st := by
  unfold insertPrePrepare
  rw [h]

/-- A prepare vote already recorded makes the insertion a no-op. -/
theorem insertPrepare_of_mem {st : State} {peer : PeerId} {p : Prepare}
    (h : st.prepares.any (fun e => e.2 == peer && e.1.view == p.view && e.1.n == p.n) = true) :
    insertPrepare st peer p = st := by
  unfold insertPrepare
  rw [h]
  rfl

/-- After inserting a prepare vote, the vote is recorded. -/
theorem insertPrepare_mem (st : State) (peer : PeerId) (p : Prepare) :
    (insertPrepare st peer p).prepares.any
      (fun e => e.2 == peer && e.1.view == p.view && e.1.n == p.n) = true := by
  unfold insertPrepare
  split
  next h => exact h
  · show ((p, peer) :: st.prepares).any _ = true
    simp

/-- A commit vote already recorded makes the insertion a no-op. -/
theorem insertCommit_of_mem {st : State} {peer : PeerId} {c : Commit}
    (h : st.commits.any (fun e => e.2 == peer && e.1.view == c.view && e.1.n == c.n) = true) :
    insertCommit st peer c = st := by
  unfold insertCommit
  rw [h]
  rfl

/-- After inserting a commit vote, the vote is recorded. -/
theorem insertCommit_mem (st : State) (peer : PeerId) (c : Commit) :
    (insertCommit st peer c).commits.any
      (fun e => e.2 == peer && e.1.view == c.view && e.1.n == c.n) = true := by
  unfold insertCommit
  split
  next h => exact h
  · show ((c, peer) :: st.commits).any _ = true
    simp

/-! ## Shape lemmas for the event-processing functions -/

/-- A successful pre-prepare validation certifies digest validity, the
current-view equality, and digest agreement with any stored entry. -/
theorem validatePrePrepare_ok {st : State} {pp : PrePrepare}
    (h : validatePrePrepare st pp = .ok ()) :
    pp.digest = requestDigest pp.request ∧ pp.view = st.currentView ∧
    ∀ stored, getPrePrepare st pp = some stored → stored.digest = pp.digest := by
  unfold validatePrePrepare at h
  by_cases h1 : pp.digest ≠ requestDigest pp.request
  · rw [if_pos h1] at h
    cases h
  · rw [if_neg h1] at h
    by_cases h2 : pp.view ≠ st.currentView
    · rw [if_pos h2] at h
      cases h
    · rw [if_neg h2] at h
      refine ⟨not_ne_iff.mp h1, not_ne_iff.mp h2, ?_⟩
      intro stored hstored
      rw [hstored] at h
      simp only [] at h
      by_cases h3 : pp.digest ≠ stored.digest
      · rw [if_pos h3] at h
        cases h
      · exact (not_ne_iff.mp h3).symm

/-- Decomposition of a successful `process_pre_prepare` run. -/
theorem processPrePrepare_ok {r : Replica} {pp : PrePrepare} {r' : Replica}
    (h : processPrePrepare r pp = .ok r') :
    validatePrePrepare r.state pp = .ok () ∧
    r'.state = insertPrepare (insertPrePrepare r.state pp) r.selfId (Prepare.ofPrePrepare pp) ∧
    r'.selfId = r.selfId ∧ r'.connectedPeers = r.connectedPeers ∧
    r'.clientReplies = r.clientReplies ∧ r'.prePrepareSequence = r.prePrepareSequence ∧
    r'.queuedEvents =
      r.queuedEvents ++ broadcast r.connectedPeers (.prepareRequest (Prepare.ofPrePrepare pp)) := by
  unfold processPrePrepare at h
  split at h
  · cases h
  next hv =>
    split at h
    · cases h
    · cases h
      exact ⟨hv, rfl, rfl, rfl, rfl, rfl, rfl⟩

/-- Decomposition of a successful `add_client_request` run. -/
theorem addClientRequest_ok {r : Replica} {req : ClientRequest} {r' : Replica}
    (h : addClientRequest r req = .ok r') :
    validatePrePrepare r.state
      (PrePrepare.build r.state.currentView (r.prePrepareSequence + 1) req) = .ok () ∧
    r'.state =
      insertPrepare
        (insertPrePrepare r.state (PrePrepare.build r.state.currentView (r.prePrepareSequence + 1) req))
        r.selfId
        (Prepare.ofPrePrepare (PrePrepare.build r.state.currentView (r.prePrepareSequence + 1) req)) ∧
    r'.selfId = r.selfId ∧ r'.connectedPeers = r.connectedPeers ∧
    r'.clientReplies = r.clientReplies := by
  unfold addClientRequest at h
  split at h
  · cases h
  · have hp := processPrePrepare_ok h
    exact ⟨hp.1, hp.2.1, hp.2.2.1, hp.2.2.2.1, hp.2.2.2.2.1⟩

/-- Decomposition of a successful prepare-event run. -/
theorem processPrepareEvent_ok {r : Replica} {peer : PeerId} {p : Prepare}
    {conn : ConnectionId} {r' : Replica}
    (h : processPrepareEvent r peer p conn = .ok r') :
    validatePrepare r.state p = .ok () ∧
    r'.state = insertPrepare r.state peer p ∧
    r'.selfId = r.selfId ∧ r'.connectedPeers = r.connectedPeers ∧
    r'.clientReplies = r.clientReplies ∧ r'.prePrepareSequence = r.prePrepareSequence ∧
    ∃ extra, r'.queuedEvents =
      r.queuedEvents ++ [.sendEvent peer (.prepareResponse "OK" conn)] ++ extra := by
  unfold processPrepareEvent at h
  split at h
  · cases h
  next hv =>
    simp only [] at h
    by_cases hq : prepared (insertPrepare r.state peer p) p.view p.n = true
    · rw [if_pos hq] at h
      cases h
      exact ⟨hv, rfl, rfl, rfl, rfl, rfl,
        broadcast r.connectedPeers (.commitRequest (Commit.ofPrepare p)), by simp⟩
    · rw [if_neg hq] at h
      cases h
      exact ⟨hv, rfl, rfl, rfl, rfl, rfl, [], by simp⟩

/-- Decomposition of a successful commit-event run: either the slot did not
execute (not committed-local, or duplicate-suppressed) and only the commit
vote was recorded, or it executed and a reply with a strictly larger
timestamp was enqueued and recorded. -/
theorem processCommitEvent_ok {r : Replica} {peer : PeerId} {c : Commit}
    {conn : ConnectionId} {r' : Replica}
    (h : processCommitEvent r peer c conn = .ok r') :
    validateCommit r.state c = .ok () ∧
    r'.selfId = r.selfId ∧ r'.connectedPeers = r.connectedPeers ∧
    r'.prePrepareSequence = r.prePrepareSequence ∧
    r'.queuedEvents = r.queuedEvents ++ [.sendEvent peer (.commitResponse "OK" conn)] ∧
    ((committedLocal (insertCommit r.state peer c) c.view c.n = false ∧
      r'.state = insertCommit r.state peer c ∧ r'.clientReplies = r.clientReplies) ∨
     (∃ pp, getPrePrepareByKey (insertCommit r.state peer c) c.view c.n = some pp ∧
        committedLocal (insertCommit r.state peer c) c.view c.n = true ∧
        pp.request.timestamp ≤ r.state.lastTimestamp ∧
        r'.state = insertCommit r.state peer c ∧ r'.clientReplies = r.clientReplies) ∨
     (∃ pp, getPrePrepareByKey (insertCommit r.state peer c) c.view c.n = some pp ∧
        committedLocal (insertCommit r.state peer c) c.view c.n = true ∧
        r.state.lastTimestamp < pp.request.timestamp ∧
        r'.state = { insertCommit r.state peer c with lastTimestamp := pp.request.timestamp } ∧
        r'.clientReplies = r.clientReplies ++ [ClientReply.build r.selfId pp.request c])) := by
  unfold processCommitEvent at h
  split at h
  · cases h
  next hv =>
    simp only [] at h
    by_cases hcl : committedLocal (insertCommit r.state peer c) c.view c.n = true
    · rw [if_pos hcl] at h
      split at h
      · cases h
      next pp hpp =>
        by_cases hts : pp.request.timestamp ≤ (insertCommit r.state peer c).lastTimestamp
        · rw [if_pos hts] at h
          cases h
          refine ⟨hv, rfl, rfl, rfl, rfl, .inr (.inl ⟨pp, hpp, hcl, ?_, rfl, rfl⟩)⟩
          rw [insertCommit_lastTimestamp] at hts
          exact hts
        · rw [if_neg hts] at h
          cases h
          refine ⟨hv, rfl, rfl, rfl, rfl, .inr (.inr ⟨pp, hpp, hcl, ?_, rfl, rfl⟩)⟩
          rw [insertCommit_lastTimestamp] at hts
          omega
    · rw [if_neg (by simpa using hcl)] at h
      cases h
      exact ⟨hv, rfl, rfl, rfl, rfl, .inl ⟨by simpa using hcl, rfl, rfl⟩⟩

/-- Decomposition of a successful pre-prepare handler event. -/
theorem injectPrePrepare_ok {r : Replica} {pp : PrePrepare} {peer : PeerId}
    {conn : ConnectionId} {r' : Replica}
    (h : processPrePrepareEvent r peer pp conn = .ok r') :
    ∃ r1, processPrePrepare r pp = .ok r1 ∧
      r' = { r1 with
             queuedEvents := r1.queuedEvents ++ [.sendEvent peer (.prePrepareResponse "OK" conn)] } := by
  unfold processPrePrepareEvent at h
  split at h
  · cases h
  next r1 hr1 =>
    cases h
    exact ⟨r1, hr1, rfl⟩

/-! ## Step lemmas: log stability and the view invariant -/

/-- A transition never disturbs a logged pre-prepare: whatever is stored at a
slot stays stored unchanged. -/
theorem step_getPrePrepareByKey {r r' : Replica} (h : Step r r') {v n : Nat} {pp : PrePrepare}
    (hl : getPrePrepareByKey r.state v n = some pp) :
    getPrePrepareByKey r'.state v n = some pp := by
  cases h with
  | addPeer peer => exact hl
  | connected peer => exact hl
  | disconnected peer => exact hl
  | poll => exact hl
  | clientRequest _ req hok =>
    obtain ⟨-, hstate, -⟩ := addClientRequest_ok hok
    have hpre : r'.state.prePrepares =
        (insertPrePrepare r.state
          (PrePrepare.build r.state.currentView (r.prePrepareSequence + 1) req)).prePrepares := by
      rw [hstate, insertPrepare_prePrepares]
    rw [getPrePrepareByKey_congr hpre v n]
    exact getPrePrepareByKey_insertPrePrepare hl _
  | nodeEvent _ peer evt hok =>
    cases evt with
    | processPrePrepareRequest pp0 conn =>
      obtain ⟨r1, hr1, hr'⟩ := injectPrePrepare_ok hok
      obtain ⟨-, hstate, -⟩ := processPrePrepare_ok hr1
      have hpre : r'.state.prePrepares = (insertPrePrepare r.state pp0).prePrepares := by
        rw [hr']
        show r1.state.prePrepares = _
        rw [hstate, insertPrepare_prePrepares]
      rw [getPrePrepareByKey_congr hpre v n]
      exact getPrePrepareByKey_insertPrePrepare hl _
    | response s =>
      cases hok
      exact hl
    | processPrepareRequest p conn =>
      obtain ⟨-, hstate, -⟩ := processPrepareEvent_ok hok
      have hpre : r'.state.prePrepares = r.state.prePrepares := by
        rw [hstate, insertPrepare_prePrepares]
      rw [getPrePrepareByKey_congr hpre v n]
      exact hl
    | processCommitRequest c conn =>
      have hs := processCommitEvent_ok hok
      have hpre : r'.state.prePrepares = r.state.prePrepares := by
        rcases hs.2.2.2.2.2 with ⟨-, hstate, -⟩ | ⟨pp0, -, -, -, hstate, -⟩ | ⟨pp0, -, -, -, hstate, -⟩
        · rw [hstate, insertCommit_prePrepares]
        · rw [hstate, insertCommit_prePrepares]
        · rw [hstate]
          show (insertCommit r.state peer c).prePrepares = _
          rw [insertCommit_prePrepares]
      rw [getPrePrepareByKey_congr hpre v n]
      exact hl

/-- A transition preserves the current view, and any new log entry carries the
current view. -/
theorem step_view_log {r r' : Replica} (h : Step r r') :
    r'.state.currentView = r.state.currentView ∧
    ∀ q ∈ r'.state.prePrepares, q ∈ r.state.prePrepares ∨ q.view = r.state.currentView := by
  cases h with
  | addPeer peer => exact ⟨rfl, fun q hq => .inl hq⟩
  | connected peer => exact ⟨rfl, fun q hq => .inl hq⟩
  | disconnected peer => exact ⟨rfl, fun q hq => .inl hq⟩
  | poll => exact ⟨rfl, fun q hq => .inl hq⟩
  | clientRequest _ req hok =>
    obtain ⟨-, hstate, -⟩ := addClientRequest_ok hok
    constructor
    · rw [hstate, insertPrepare_currentView, insertPrePrepare_currentView]
    · intro q hq
      rw [hstate, insertPrepare_prePrepares] at hq
      rcases mem_insertPrePrepare hq with h1 | h1
      · exact .inl h1
      · right
        rw [h1]
        rfl
  | nodeEvent _ peer evt hok =>
    cases evt with
    | processPrePrepareRequest pp0 conn =>
      obtain ⟨r1, hr1, hr'⟩ := injectPrePrepare_ok hok
      obtain ⟨hvld, hstate, -⟩ := processPrePrepare_ok hr1
      have hview := (validatePrePrepare_ok hvld).2.1
      have hst : r'.state = r1.state := by rw [hr']
      constructor
      · rw [hst, hstate, insertPrepare_currentView, insertPrePrepare_currentView]
      · intro q hq
        rw [hst, hstate, insertPrepare_prePrepares] at hq
        rcases mem_insertPrePrepare hq with h1 | h1
        · exact .inl h1
        · right
          rw [h1]
          exact hview
    | response s =>
      cases hok
      exact ⟨rfl, fun q hq => .inl hq⟩
    | processPrepareRequest p conn =>
      obtain ⟨-, hstate, -⟩ := processPrepareEvent_ok hok
      constructor
      · rw [hstate, insertPrepare_currentView]
      · intro q hq
        rw [hstate, insertPrepare_prePrepares] at hq
        exact .inl hq
    | processCommitRequest c conn =>
      have hs := processCommitEvent_ok hok
      rcases hs.2.2.2.2.2 with ⟨-, hstate, -⟩ | ⟨pp0, -, -, -, hstate, -⟩ | ⟨pp0, -, -, -, hstate, -⟩
      · constructor
        · rw [hstate, insertCommit_currentView]
        · intro q hq
          rw [hstate, insertCommit_prePrepares] at hq
          exact .inl hq
      · constructor
        · rw [hstate, insertCommit_currentView]
        · intro q hq
          rw [hstate, insertCommit_prePrepares] at hq
          exact .inl hq
      · constructor
        · rw [hstate]
          show (insertCommit r.state peer c).currentView = _
          rw [insertCommit_currentView]
        · intro q hq
          rw [hstate] at hq
          have hq' : q ∈ (insertCommit r.state peer c).prePrepares := hq
          rw [insertCommit_prePrepares] at hq'
          exact .inl hq'

/-- Every reachable replica is still in view 0 and every logged pre-prepare
carries view 0 (no view change is implemented). -/
theorem reachable_view_inv {i : PeerId} {r : Replica} (h : Reachable i r) :
    r.state.currentView = 0 ∧ ∀ pp ∈ r.state.prePrepares, pp.view = 0 := by
  induction h with
  | refl => exact ⟨rfl, by intro pp hpp; cases hpp⟩
  | tail hab hbc ih =>
    obtain ⟨hview, hlog⟩ := step_view_log hbc
    refine ⟨hview.trans ih.1, ?_⟩
    intro pp hpp
    rcases hlog pp hpp with h1 | h1
    · exact ih.2 pp h1
    · exact h1.trans ih.1

/-! ## Counting lemmas for the commit tally -/

/-- The commit tally for a view is positive exactly when some commit for that
view is logged. -/
theorem commitLen_pos_iff (st : State) (v : Nat) :
    1 ≤ commitLen st v ↔ ∃ e ∈ st.commits, e.1.view = v := by
  unfold commitLen
  rw [Nat.one_le_iff_ne_zero]
  simp [List.length_eq_zero, List.dedup_eq_nil, List.map_eq_nil_iff, List.filter_eq_nil_iff]

/-- After inserting a commit, its view has a logged commit. -/
theorem insertCommit_has_view (st : State) (peer : PeerId) (c : Commit) :
    ∃ e ∈ (insertCommit st peer c).commits, e.1.view = c.view := by
  unfold insertCommit
  split
  next h =>
    obtain ⟨e, he, hp⟩ := List.any_eq_true.mp h
    simp only [Bool.and_eq_true, beq_iff_eq] at hp
    exact ⟨e, he, hp.1.2⟩
  · exact ⟨(c, peer), by show (c, peer) ∈ (c, peer) :: st.commits; simp, rfl⟩

/-! ## Claim C1 -/

/-- Claim C1 (code bug): the prepared and committed-local predicates of
`src/behavior.rs` do not implement the claimed quorum rule.  In a state with
a single logged prepare and a single logged commit for slot `(0, 1)`, the
source's `committed_local` already returns true, while the specified
predicates (with `n = 4`, so `f = 1`, `2 f = 2`, `2 f + 1 = 3`) reject both
the prepared and the committed-local test. -/
theorem c1_quorum_placeholder :
    committedLocal c1State 0 1 = true ∧
    preparedAsSpecified 4 c1State 0 1 "d0" = false ∧
    committedLocalAsSpecified 4 c1State 0 1 "d0" = false := by
  decide

/-! ## Claim C2 -/

/-- Claim C2 (code bug): a PREPARE that fails validation is not dropped
locally — the source `unwrap`s the validation `Result`, so the replica
aborts (panics).  Delivering a prepare with no matching pre-prepare to a
fresh replica produces the abort, not a local drop. -/
theorem c2_invalid_message_panics :
    injectNodeEvent (initReplica 1) 2 (.processPrepareRequest c2Prep 0) =
      .error (.noMatchingPrePrepare c2Prep) := by
  decide

/-! ## Claim C6 -/

/-- Claim C6 counterexample: in the single-node configuration (no connected
peers) a client request does not commit locally — `add_client_request`
panics on the empty peer set, so no reply is ever enqueued. -/
theorem c6_counterexample :
    addClientRequest (initReplica 1) c6Req = .error .panicConnectedPeersEmpty := by
  decide

/-- Claim C6 (amended): with no connected peers, `add_client_request` always
aborts with the empty-peer panic; the primary neither commits locally nor
enqueues a client reply. -/
theorem c6_no_peers_panics (r : Replica) (req : ClientRequest)
    (h : r.connectedPeers = []) :
    addClientRequest r req = .error .panicConnectedPeersEmpty := by
  unfold addClientRequest
  rw [h]
  rfl

/-- Witness for the amended claim C6 at a concrete fresh replica. -/
theorem c6_no_peers_panics_witness :
    addClientRequest (initReplica 2) c6Req = .error .panicConnectedPeersEmpty :=
  c6_no_peers_panics (initReplica 2) c6Req rfl

/-! ## Claim C9 -/

/-- Claim C9: startup node-type determination — no positional argument starts
a backup, the single argument `primary` starts a primary, and an unknown
argument or more than one positional argument is fatal (panic or
`expect` failure, exiting non-zero). -/
theorem c9_node_type_determination :
    (∀ prog : String, startupNodeType [prog] = .started .backup) ∧
    (∀ prog : String, startupNodeType [prog, "primary"] = .started .primary) ∧
    (∀ prog arg : String, arg ≠ "primary" → startupNodeType [prog, arg] = .fatal) ∧
    (∀ args : List String, 3 ≤ args.length → startupNodeType args = .fatal) := by
  refine ⟨fun prog => rfl, fun prog => rfl, ?_, ?_⟩
  · intro prog arg h
    unfold startupNodeType determineNodeType
    simp [h]
  · intro args hlen
    match args, hlen with
    | a1 :: a2 :: a3 :: rest, _ => rfl

/-- Witness for claim C9 at concrete argument vectors. -/
theorem c9_node_type_determination_witness :
    startupNodeType ["pbft", "foo"] = .fatal ∧ startupNodeType ["pbft", "a", "b"] = .fatal :=
  ⟨c9_node_type_determination.2.2.1 "pbft" "foo" (by decide),
   c9_node_type_determination.2.2.2 ["pbft", "a", "b"] (by decide)⟩

/-! ## Claim C10 -/

/-- Claim C10: the commit tally consulted by `committed_local` is keyed by
view alone — two sequences of the same view read the same commit count, so
they agree whenever their prepared bits agree, and a commit logged for any
sequence of a view pushes every prepared sequence of that view to
committed-local. -/
theorem c10_commit_tally_ignores_sequence :
    (∀ (st : State) (v s1 s2 : Nat), prepared st v s1 = prepared st v s2 →
      committedLocal st v s1 = committedLocal st v s2) ∧
    (∀ (st : State) (peer : PeerId) (c : Commit) (s : Nat),
      prepared (insertCommit st peer c) c.view s = true →
      committedLocal (insertCommit st peer c) c.view s = true) := by
  constructor
  · intro st v s1 s2 h
    unfold committedLocal
    rw [h]
  · intro st peer c s h
    unfold committedLocal
    rw [h]
    simp only [Bool.true_and, decide_eq_true_eq]
    exact (commitLen_pos_iff _ _).mpr (insertCommit_has_view st peer c)

/-- Witness for claim C10: a commit for sequence 1 of view 0 makes the
prepared sequence 5 committed-local, and two sequences with equal prepared
bits agree. -/
theorem c10_commit_tally_ignores_sequence_witness :
    committedLocal (insertCommit c10St 2 c10Com) 0 5 = true ∧
    committedLocal c10St 0 3 = committedLocal c10St 0 4 :=
  ⟨c10_commit_tally_ignores_sequence.2 c10St 2 c10Com 5 (by decide),
   c10_commit_tally_ignores_sequence.1 c10St 0 3 4 (by decide)⟩

/-! ## Claim C8: digest length lemmas -/

/-- The compression function returns an 8-word chain value. -/
theorem compress_length (h m : List Nat) (t : Nat) (f : Bool) :
    (compress h m t f).length = 8 := by
  simp [compress]

/-- Iterated compression of a nonempty block list returns an 8-word chain
value. -/
theorem processBlocks_length (blocks : List (List Nat)) :
    ∀ (h : List Nat) (p t : Nat), blocks ≠ [] → (processBlocks h blocks p t).length = 8 := by
  induction blocks with
  | nil =>
    intro h p t hne
    exact absurd rfl hne
  | cons b rest ih =>
    intro h p t hne
    cases rest with
    | nil => exact compress_length _ _ _ _
    | cons b2 rest2 =>
      show (processBlocks (compress h (chunkWords b) (p + 128) false) (b2 :: rest2)
        (p + 128) t).length = 8
      exact ih _ _ _ (by simp)

/-- The block splitter never returns an empty block list. -/
theorem chunksGo_ne_nil (fuel : Nat) (l : List Nat) : chunksGo fuel l ≠ [] := by
  cases fuel with
  | zero => simp [chunksGo]
  | succ fuel' =>
    unfold chunksGo
    split <;> simp

/-- BLAKE2b-512 always produces a 64-byte (512-bit) digest. -/
theorem blake2b512_length (msg : List Nat) : (blake2b512 msg).length = 64 := by
  unfold blake2b512
  rw [List.length_flatten, List.map_map]
  have h8 : (processBlocks blake2bInit (chunks128 msg) 0 msg.length).length = 8 :=
    processBlocks_length _ _ _ _ (chunksGo_ne_nil _ _)
  have hconst : ∀ w : Nat,
      (List.length ∘ fun w => (List.range 8).map (fun i => w / 256 ^ i % 256)) w = 8 := by
    intro w
    simp
  rw [List.map_congr_left (fun w _ => hconst w), List.map_const']
  rw [h8]
  decide

/-! ## Claim C8 -/

/-- Claim C8: `PrePrepare::from` in `src/message.rs` sets the digest field to
the BLAKE2b hex digest of the bound message's bytes; the digest is 64 bytes
(512 bits, at least 256), and the model agrees with the BLAKE2b-512 RFC test
vector for "abc". -/
theorem c8_preprepare_digest_is_blake2b :
    (∀ (v n : Nat) (msg : String),
      (Src.PrePrepare.fromMessage v n msg).digest = hexOfBytes (blake2b512 (strBytes msg))) ∧
    (∀ msg : String, (blake2b512 (strBytes msg)).length = 64) ∧
    blake2b512Hex "abc" =
      "ba80a53f981c4d0d6a2797b69f12f6e94c212f14685ac4b74b12bb6fdbffa2d17d87c5392aab792dc252d5de4533cc9518d38aa8dbf1925ab92386edd4009923" := by
  refine ⟨fun v n msg => rfl, fun msg => blake2b512_length _, ?_⟩
  decide

/-! ## Claim C3 -/

/-- Claim C3 counterexample: duplicate suppression is not tracked per client.
The replica last replied to client A at timestamp 100; client B has no
recorded reply (its claim-side last-reply timestamp is 0), yet B's committed
request with timestamp 50 is discarded — no reply is enqueued and the
recorded timestamp is unchanged — because the source keeps a single
replica-wide last timestamp. -/
theorem c3_counterexample :
    lastReplyTimestampOfClient c3Replica.clientReplies c3ReqB.client < c3ReqB.timestamp ∧
    getPrePrepareByKey (insertCommit c3Replica.state 3 c3Com) 0 1 = some c3PP ∧
    committedLocal (insertCommit c3Replica.state 3 c3Com) 0 1 = true ∧
    injectNodeEvent c3Replica 3 (.processCommitRequest c3Com 0) = .ok c3After ∧
    c3After.clientReplies = c3Replica.clientReplies ∧
    c3After.state.lastTimestamp = c3Replica.state.lastTimestamp := by
  decide

/-- Claim C3 (amended): duplicate suppression is tracked by a single
replica-wide last-reply timestamp.  Every handler event either leaves the
reply queue unchanged or appends exactly one reply whose timestamp strictly
exceeds the previous last-reply timestamp and becomes the new one; a
committed request whose timestamp is at most the replica-wide last-reply
timestamp is discarded without executing or enqueuing a reply; client-request
intake never enqueues replies.  Hence the executed timestamps are strictly
increasing replica-wide — in particular per client. -/
theorem c3_global_suppression :
    (∀ (r : Replica) (peer : PeerId) (evt : PbftHandlerEvent) (r' : Replica),
      injectNodeEvent r peer evt = .ok r' →
      r'.clientReplies = r.clientReplies ∨
      ∃ reply, r'.clientReplies = r.clientReplies ++ [reply] ∧
        r.state.lastTimestamp < reply.timestamp ∧
        r'.state.lastTimestamp = reply.timestamp) ∧
    (∀ (r : Replica) (peer : PeerId) (c : Commit) (conn : ConnectionId) (r' : Replica)
      (pp : PrePrepare),
      injectNodeEvent r peer (.processCommitRequest c conn) = .ok r' →
      getPrePrepareByKey (insertCommit r.state peer c) c.view c.n = some pp →
      pp.request.timestamp ≤ r.state.lastTimestamp →
      r'.clientReplies = r.clientReplies ∧ r'.state.lastTimestamp = r.state.lastTimestamp) ∧
    (∀ (r : Replica) (req : ClientRequest) (r' : Replica),
      addClientRequest r req = .ok r' → r'.clientReplies = r.clientReplies) := by
  refine ⟨?_, ?_, ?_⟩
  · intro r peer evt r' h
    cases evt with
    | processPrePrepareRequest pp conn =>
      obtain ⟨r1, hr1, hr'⟩ := injectPrePrepare_ok h
      left
      rw [hr']
      show r1.clientReplies = r.clientReplies
      exact (processPrePrepare_ok hr1).2.2.2.2.1
    | response s =>
      cases h
      exact .inl rfl
    | processPrepareRequest p conn =>
      exact .inl (processPrepareEvent_ok h).2.2.2.2.1
    | processCommitRequest c conn =>
      have hs := processCommitEvent_ok h
      rcases hs.2.2.2.2.2 with ⟨-, -, hrep⟩ | ⟨pp, -, -, -, -, hrep⟩ |
        ⟨pp, -, -, hlt, hstate, hrep⟩
      · exact .inl hrep
      · exact .inl hrep
      · right
        refine ⟨ClientReply.build r.selfId pp.request c, hrep, hlt, ?_⟩
        rw [hstate]
        rfl
  · intro r peer c conn r' pp h hpp hle
    have hs := processCommitEvent_ok h
    rcases hs.2.2.2.2.2 with ⟨-, hstate, hrep⟩ | ⟨pp', -, -, -, hstate, hrep⟩ |
      ⟨pp', hpp', -, hlt, -, -⟩
    · exact ⟨hrep, by rw [hstate, insertCommit_lastTimestamp]⟩
    · exact ⟨hrep, by rw [hstate, insertCommit_lastTimestamp]⟩
    · rw [hpp] at hpp'
      cases hpp'
      omega
  · intro r req r' h
    exact (addClientRequest_ok h).2.2.2.2

/-- Witness for the amended claim C3: with a request timestamp of 150 above
the replica-wide last-reply timestamp of 100, the commit executes and the
reply queue grows by exactly that reply. -/
theorem c3_global_suppression_witness :
    injectNodeEvent c3ReplicaHi 3 (.processCommitRequest c3Com 0) = .ok c3AfterHi ∧
    (c3AfterHi.clientReplies = c3ReplicaHi.clientReplies ∨
      ∃ reply, c3AfterHi.clientReplies = c3ReplicaHi.clientReplies ++ [reply] ∧
        c3ReplicaHi.state.lastTimestamp < reply.timestamp ∧
        c3AfterHi.state.lastTimestamp = reply.timestamp) := by
  have h : injectNodeEvent c3ReplicaHi 3 (.processCommitRequest c3Com 0) = .ok c3AfterHi := by
    decide
  exact ⟨h, c3_global_suppression.1 c3ReplicaHi 3 _ c3AfterHi h⟩

/-! ## Claim C4 -/

/-- Claim C4: accepting a pre-prepare into an occupied slot with a different
digest fails validation with the conflicting-digest error, and no transition
ever changes what is logged at a slot — so each `(view, seq)` carries at most
one accepted digest in every reachable state. -/
theorem c4_no_equivocation :
    (∀ (st : State) (pp stored : PrePrepare),
      getPrePrepare st pp = some stored →
      pp.digest = requestDigest pp.request →
      pp.view = st.currentView →
      pp.digest ≠ stored.digest →
      validatePrePrepare st pp = .error (.conflictingDigest pp stored)) ∧
    (∀ (r r' : Replica), Step r r' → ∀ (v n : Nat) (pp : PrePrepare),
      getPrePrepareByKey r.state v n = some pp →
      getPrePrepareByKey r'.state v n = some pp) := by
  constructor
  · intro st pp stored h1 h2 h3 h4
    unfold validatePrePrepare
    rw [if_neg (not_ne_iff.mpr h2), if_neg (not_ne_iff.mpr h3), h1]
    simp only []
    rw [if_pos h4]
  · intro r r' hstep v n pp hl
    exact step_getPrePrepareByKey hstep hl

/-- Witness for claim C4: the concrete occupied slot rejects a well-formed
pre-prepare with a different digest, and a poll step preserves the stored
entry. -/
theorem c4_no_equivocation_witness :
    validatePrePrepare c4St c4PP = .error (.conflictingDigest c4PP c4Stored) ∧
    getPrePrepareByKey
      ({ c4Replica with queuedEvents := c4Replica.queuedEvents.tail }).state 0 1 =
      some c4Stored :=
  ⟨c4_no_equivocation.1 c4St c4PP c4Stored (by decide) (by decide) (by decide) (by decide),
   c4_no_equivocation.2 c4Replica _ (Step.poll c4Replica) 0 1 c4Stored (by decide)⟩

/-! ## Claim C5 -/

/-- Claim C5: a prepare is accepted only when a pre-prepare with the same
`(view, seq)` and equal digest is logged, and — on reachable states, where
every logged pre-prepare is in the (never-changing) current view — only when
its view equals the replica's current view.  A prepare arriving before its
pre-prepare is rejected with the no-matching-pre-prepare error, and once the
pre-prepare is logged the retransmitted prepare is accepted. -/
theorem c5_prepare_validation :
    (∀ (i : PeerId) (r : Replica) (p : Prepare), Reachable i r →
      validatePrepare r.state p = .ok () →
      (∃ pp, getPrePrepareByKey r.state p.view p.n = some pp ∧ pp.digest = p.digest) ∧
      p.view = r.state.currentView) ∧
    (∀ (st : State) (p : Prepare), getPrePrepareByKey st p.view p.n = none →
      validatePrepare st p = .error (.noMatchingPrePrepare p)) ∧
    (∀ (st : State) (p : Prepare) (pp : PrePrepare),
      getPrePrepareByKey st p.view p.n = some pp → pp.digest = p.digest →
      validatePrepare st p = .ok ()) := by
  refine ⟨?_, ?_, ?_⟩
  · intro i r p hreach hval
    unfold validatePrepare at hval
    cases hpp : getPrePrepareByKey r.state p.view p.n with
    | none =>
      rw [hpp] at hval
      cases hval
    | some pp =>
      rw [hpp] at hval
      simp only [] at hval
      by_cases hd : (pp.digest == p.digest) = true
      · refine ⟨⟨pp, rfl, eq_of_beq hd⟩, ?_⟩
        have hpred := List.find?_some hpp
        simp only [Bool.and_eq_true, beq_iff_eq] at hpred
        have hmem := List.mem_of_find?_eq_some hpp
        have hinv := reachable_view_inv hreach
        rw [← hpred.1, hinv.2 pp hmem, hinv.1]
      · rw [if_neg hd] at hval
        cases hval
  · intro st p h
    unfold validatePrepare
    rw [h]
  · intro st p pp h hd
    unfold validatePrepare
    rw [h]
    simp only []
    rw [if_pos (beq_iff_eq.mpr hd)]

/-- Witness for claim C5: a reachable replica that accepted a pre-prepare
from peer 7 accepts the matching prepare, whose view equals the current
view; the same prepare is rejected on the fresh state before the
pre-prepare. -/
theorem c5_prepare_validation_witness :
    validatePrepare c5R2.state c5Prep = .ok () ∧
    c5Prep.view = c5R2.state.currentView ∧
    validatePrepare (initReplica 1).state c5Prep =
      .error (.noMatchingPrePrepare c5Prep) := by
  have hstep1 : Step c5R0 c5R1 := Step.connected c5R0 7
  have hstep2 : Step c5R1 c5R2 :=
    Step.nodeEvent c5R1 c5R2 7 (.processPrePrepareRequest c5PP 0) (by decide)
  have hreach : Reachable 1 c5R2 :=
    Relation.ReflTransGen.tail (Relation.ReflTransGen.tail Relation.ReflTransGen.refl hstep1)
      hstep2
  have hval : validatePrepare c5R2.state c5Prep = .ok () := by decide
  exact ⟨hval, (c5_prepare_validation.1 1 c5R2 c5Prep hreach hval).2,
    c5_prepare_validation.2.1 (initReplica 1).state c5Prep (by decide)⟩

/-! ## Claim C7 -/

/-- Claim C7 counterexample: re-delivering an already-processed prepare
leaves the log unchanged but NOT the outbound queue — the second delivery
queues the acknowledgement and the commit broadcast again. -/
theorem c7_counterexample :
    injectNodeEvent c7Replica 2 c7Event = .ok c7Once ∧
    injectNodeEvent c7Once 2 c7Event = .ok c7Twice ∧
    c7Twice.state = c7Once.state ∧
    c7Twice.clientReplies = c7Once.clientReplies ∧
    c7Twice.queuedEvents ≠ c7Once.queuedEvents := by
  decide

/-- Claim C7 (amended): re-delivering an already-processed protocol message
(pre-prepare, prepare or commit) leaves the log state and the client-reply
queue unchanged, but strictly grows the outbound event queue (at least the
acknowledgement is queued again), so event processing is idempotent on the
log but not on the outbound queue. -/
theorem c7_redelivery :
    ∀ (r : Replica) (peer : PeerId) (evt : PbftHandlerEvent) (r1 r2 : Replica),
      IsProtocolMessage evt →
      injectNodeEvent r peer evt = .ok r1 →
      injectNodeEvent r1 peer evt = .ok r2 →
      r2.state = r1.state ∧ r2.clientReplies = r1.clientReplies ∧
      r1.queuedEvents.length < r2.queuedEvents.length := by
  intro r peer evt r1 r2 hproto hok1 hok2
  cases evt with
  | response s => exact hproto.elim
  | processPrePrepareRequest pp conn =>
    obtain ⟨ra, hra, hr1⟩ := injectPrePrepare_ok hok1
    obtain ⟨-, hsa, hselfa, -, hrepa, -, hqa⟩ := processPrePrepare_ok hra
    obtain ⟨rb, hrb, hr2⟩ := injectPrePrepare_ok hok2
    obtain ⟨-, hsb, -, -, hrepb, -, hqb⟩ := processPrePrepare_ok hrb
    have h1state : r1.state =
        insertPrepare (insertPrePrepare r.state pp) r.selfId (Prepare.ofPrePrepare pp) := by
      rw [hr1]
      exact hsa
    have h1self : r1.selfId = r.selfId := by
      rw [hr1]
      exact hselfa
    refine ⟨?_, ?_, ?_⟩
    · have hq : getPrePrepareByKey r1.state pp.view pp.n =
          getPrePrepareByKey (insertPrePrepare r.state pp) pp.view pp.n := by
        apply getPrePrepareByKey_congr
        rw [h1state, insertPrepare_prePrepares]
      obtain ⟨q, hqq⟩ := insertPrePrepare_occupied r.state pp
      have hins1 : insertPrePrepare r1.state pp = r1.state :=
        insertPrePrepare_of_occupied (by rw [hq]; exact hqq)
      have h2state : r2.state =
          insertPrepare (insertPrePrepare r1.state pp) r1.selfId (Prepare.ofPrePrepare pp) := by
        rw [hr2]
        exact hsb
      rw [h2state, hins1, h1self, h1state]
      exact insertPrepare_of_mem (insertPrepare_mem _ _ _)
    · rw [hr2]
      show rb.clientReplies = r1.clientReplies
      exact hrepb
    · rw [hr2]
      show r1.queuedEvents.length <
        (rb.queuedEvents ++
          [NetworkAction.sendEvent peer (PbftHandlerIn.prePrepareResponse "OK" conn)]).length
      rw [hqb]
      simp only [List.length_append, List.length_cons, List.length_nil]
      omega
  | processPrepareRequest p conn =>
    obtain ⟨-, hs1, -, -, -, -, -⟩ := processPrepareEvent_ok hok1
    obtain ⟨-, hs2, -, -, hrep2, -, extra, hq2⟩ := processPrepareEvent_ok hok2
    refine ⟨?_, hrep2, ?_⟩
    · rw [hs2, hs1]
      exact insertPrepare_of_mem (insertPrepare_mem _ _ _)
    · rw [hq2]
      simp only [List.length_append, List.length_cons, List.length_nil]
      omega
  | processCommitRequest c conn =>
    have h1 := processCommitEvent_ok hok1
    have h2 := processCommitEvent_ok hok2
    have hmem : r1.state.commits.any
        (fun e => e.2 == peer && e.1.view == c.view && e.1.n == c.n) = true := by
      rcases h1.2.2.2.2.2 with ⟨-, hstate1, -⟩ | ⟨pp1, -, -, -, hstate1, -⟩ |
        ⟨pp1, -, -, -, hstate1, -⟩
      · rw [hstate1]
        exact insertCommit_mem _ _ _
      · rw [hstate1]
        exact insertCommit_mem _ _ _
      · rw [hstate1]
        show (insertCommit r.state peer c).commits.any _ = true
        exact insertCommit_mem _ _ _
    have hins : insertCommit r1.state peer c = r1.state := insertCommit_of_mem hmem
    have hqlen : r1.queuedEvents.length < r2.queuedEvents.length := by
      rw [h2.2.2.2.2.1]
      simp only [List.length_append, List.length_cons, List.length_nil]
      omega
    rcases h2.2.2.2.2.2 with ⟨hcl2, hstate2, hrep2⟩ | ⟨pp2, hpp2, hcl2, hle2, hstate2, hrep2⟩ |
      ⟨pp2, hpp2, hcl2, hlt2, hstate2, hrep2⟩
    · exact ⟨by rw [hstate2, hins], hrep2, hqlen⟩
    · exact ⟨by rw [hstate2, hins], hrep2, hqlen⟩
    · exfalso
      rw [hins] at hpp2 hcl2
      rcases h1.2.2.2.2.2 with ⟨hcl1, hstate1, -⟩ | ⟨pp1, hpp1, hcl1, hle1, hstate1, -⟩ |
        ⟨pp1, hpp1, hcl1, hlt1, hstate1, -⟩
      · rw [hstate1] at hcl2
        rw [hcl1] at hcl2
        exact Bool.noConfusion hcl2
      · have hl : getPrePrepareByKey r1.state c.view c.n = some pp1 := by
          rw [hstate1]
          exact hpp1
        rw [hl] at hpp2
        injection hpp2 with h12
        rw [← h12] at hlt2
        have hlast : r1.state.lastTimestamp = r.state.lastTimestamp := by
          rw [hstate1, insertCommit_lastTimestamp]
        omega
      · have hl : getPrePrepareByKey r1.state c.view c.n = some pp1 := by
          rw [hstate1]
          exact hpp1
        rw [hl] at hpp2
        injection hpp2 with h12
        rw [← h12] at hlt2
        have hlast : r1.state.lastTimestamp = pp1.request.timestamp := by
          rw [hstate1]
        omega

/-- Witness for the amended claim C7 at the concrete re-delivered prepare. -/
theorem c7_redelivery_witness :
    c7Twice.state = c7Once.state ∧ c7Twice.clientReplies = c7Once.clientReplies ∧
    c7Once.queuedEvents.length < c7Twice.queuedEvents.length :=
  c7_redelivery c7Replica 2 c7Event c7Once c7Twice trivial (by decide) (by decide)

end Pbft
